import Mathlib

/-!
Shallow embedding of the Research_Agent repository (query normalizer,
disk cache manager, result deduplicator/ranker, fallback search client,
and the search orchestration entry point), together with theorems that
settle the specification claims about them.

Python strings are modelled as `List Char` (ASCII semantics for
lower-casing and whitespace, which is all the claims exercise);
machine floats for timestamps are modelled as integer seconds;
fallible Python code (uncaught exceptions) is modelled with `Option`.
-/

/-- ASCII whitespace as recognised by Python's `str.strip`, `str.split`
and the regex class `\s`. -/
def pyIsSpace (c : Char) : Bool :=
  c = ' ' || c = '\t' || c = '\n' || c = '\r' || c = '\x0b' || c = '\x0c'

/-- Python's `str.lower`, restricted to ASCII (the only case the
claims exercise): maps 'A'..'Z' (code points 65..90) to 'a'..'z' and
fixes everything else. -/
def pyToLower (c : Char) : Char :=
  if 65 ≤ c.toNat ∧ c.toNat ≤ 90 then Char.ofNat (c.toNat + 32) else c

/-- Python's `str.strip()`: drop whitespace from both ends. -/
def pystrip (l : List Char) : List Char :=
  ((l.dropWhile pyIsSpace).reverse.dropWhile pyIsSpace).reverse

/-- Helper for `pysplit`: accumulate the current word (reversed). -/
def pysplitAux : List Char → List Char → List (List Char)
  | [], acc => if acc.isEmpty then [] else [acc.reverse]
  | c :: rest, acc =>
    if pyIsSpace c then
      if acc.isEmpty then pysplitAux rest [] else acc.reverse :: pysplitAux rest []
    else pysplitAux rest (c :: acc)

/-- Python's `str.split()` with no argument: split on runs of whitespace,
discarding empty words. -/
def pysplit (l : List Char) : List (List Char) := pysplitAux l []

/-- Python's `in` operator on strings: substring containment. -/
def hasSubstr (needle : List Char) : List Char → Bool
  | [] => needle.isEmpty
  | c :: rest => needle.isPrefixOf (c :: rest) || hasSubstr needle rest

/-- Match a literal word at the front of the input, returning the rest
(regex literal matching). -/
def stripLit : List Char → List Char → Option (List Char)
  | [], rest => some rest
  | _ :: _, [] => none
  | w :: ws, c :: cs => if c = w then stripLit ws cs else none

/-- Regex `\s+` followed by a letter: consume a maximal nonempty run of
whitespace (the following literal starts with a non-space letter, so the
greedy match point is forced). -/
def takeSpaces1 : List Char → Option (List Char)
  | [] => none
  | c :: cs => if pyIsSpace c then some (cs.dropWhile pyIsSpace) else none

/-- Regex `(.*?)(?:\?|$)` in Python semantics: the lazy group grows until
the first `'?'` (consumed, not captured) or until `$` matches, i.e. the end
of the string or just before a single trailing newline; `.` never crosses a
newline, so an interior newline with no prior `'?'` makes the whole match
fail. Returns (captured group, uncopied tail after the match). -/
def lazyTail : List Char → Option (List Char × List Char)
  | [] => some ([], [])
  | c :: rest =>
    if c = '?' then some ([], rest)
    else if c = '\n' then (if rest.isEmpty then some ([], ['\n']) else none)
    else (lazyTail rest).map (fun p => (c :: p.1, p.2))

/-- One preprocessing rule `^w1\s+w2\s+(.*?)(?:\?|$)` with replacement
`\1 ++ suffix`, as used by `re.match` + `re.sub` in `preprocess_query`:
on success the result is the substituted string, i.e. the captured group,
the pattern-specific suffix, then the unmatched tail. -/
def matchPattern (w1 w2 suffix ql : List Char) : Option (List Char) := do
  let r1 ← stripLit w1 ql
  let r2 ← takeSpaces1 r1
  let r3 ← stripLit w2 r2
  let r4 ← takeSpaces1 r3
  let (g, t) ← lazyTail r4
  pure (g ++ suffix ++ t)

/-- The closed set of question/auxiliary words checked when no regex
rule matched (`question_words` in the source). -/
def questionWords : List (List Char) :=
  ["what", "who", "when", "where", "why", "how",
   "is", "are", "was", "were", "will", "do", "does"].map String.data

/-- The ordered rule list of `EnhancedSearchTool.preprocess_query`
(src/src/test_news_api.py): (first word, second word, replacement suffix). -/
def enhancedPatterns : List (List Char × List Char × List Char) :=
  [("what".data, "is".data, "".data),
   ("who".data, "is".data, "".data),
   ("what".data, "are".data, "".data),
   ("how".data, "does".data, " function".data),
   ("how".data, "to".data, " tutorial".data),
   ("when".data, "was".data, " date history".data),
   ("where".data, "is".data, " location".data)]

/-- The ordered rule list of `CustomSearch._preprocess_query`
(src/custom_search.py); identical except "how to X" maps to "X guide". -/
def customPatterns : List (List Char × List Char × List Char) :=
  [("what".data, "is".data, "".data),
   ("who".data, "is".data, "".data),
   ("what".data, "are".data, "".data),
   ("how".data, "does".data, " function".data),
   ("how".data, "to".data, " guide".data),
   ("when".data, "was".data, " date history".data),
   ("where".data, "is".data, " location".data)]

/-- Apply the ordered rules, first match wins. -/
def tryPatterns (pats : List (List Char × List Char × List Char))
    (ql : List Char) : Option (List Char) :=
  pats.findSome? (fun p => matchPattern p.1 p.2.1 p.2.2 ql)

/-- `EnhancedSearchTool.preprocess_query` (src/src/test_news_api.py,
lines 38-77): strip the query, run the regex rules on the lower-cased
query, otherwise drop a leading question word (from the lower-cased
word list), otherwise return the stripped query. Total. -/
def preprocess_query (q : List Char) : List Char :=
  let qs := pystrip q
  let ql := qs.map pyToLower
  match tryPatterns enhancedPatterns ql with
  | some r => r
  | none =>
    match pysplit ql with
    | [] => qs
    | w :: ws => if questionWords.contains w then List.intercalate [' '] ws else qs

/-- `CustomSearch._preprocess_query` (src/custom_search.py, lines 52-79):
same shape, but the question-word branch indexes `words[0]` without
checking that the word list is nonempty, so a blank query raises
IndexError — modelled as `none`. -/
def custom_preprocess_query (q : List Char) : Option (List Char) :=
  let qs := pystrip q
  let ql := qs.map pyToLower
  match tryPatterns customPatterns ql with
  | some r => some r
  | none =>
    match pysplit ql with
    | [] => none
    | w :: ws => some (if questionWords.contains w then List.intercalate [' '] ws else qs)

/-! ### Disk cache (src/src/tools/cache_manager.py, src/src/utils/config.py) -/

/-- Cache expiry for "news" queries, in hours (src/src/utils/config.py). -/
def NEWS_CACHE_EXPIRY_HOURS : Int := 1

/-- Default cache expiry, in hours (src/src/utils/config.py). -/
def DEFAULT_CACHE_EXPIRY_HOURS : Int := 24

/-- A parsed cache file as `json.load` can deliver it to
`get_cached_result`: the fields the code touches, each possibly missing
(`cached_data.get("timestamp", 0)` tolerates a missing timestamp, while
`cached_data["report"]` raises on a missing report). -/
structure CacheEntry where
  query : String
  timestamp : Option Int
  duration : Int
  report : Option String
deriving DecidableEq

/-- A cache file on disk: either parseable JSON or garbage that makes
`json.load` raise. -/
inductive CacheFile where
  | valid (e : CacheEntry)
  | invalid
deriving DecidableEq

/-- The cache directory, as a map from cache key to file content. -/
def CacheFS : Type := String → Option CacheFile

/-- `CacheManager._get_cache_key`: md5 hex digest of
`query.lower().strip()`. The digest itself is modelled as the normalized
string (only determinism of the digest is used by any claim; distinctness
of digests is never assumed). -/
def get_cache_key (q : String) : String :=
  String.mk (pystrip (q.data.map pyToLower))

/-- The expiry threshold chosen inside `get_cached_result`:
`NEWS_CACHE_EXPIRY_HOURS if "news" in query.lower() else
DEFAULT_CACHE_EXPIRY_HOURS`. -/
def expiryHours (q : String) : Int :=
  if hasSubstr "news".data (q.data.map pyToLower) then NEWS_CACHE_EXPIRY_HOURS
  else DEFAULT_CACHE_EXPIRY_HOURS

/-- `CacheManager.get_cached_result` (src/src/tools/cache_manager.py,
lines 17-35), with `now` for `time.time()`. Returns the lookup result
together with the state of the cache directory afterwards; the body only
ever reads, so every branch hands back `fs` unchanged. A parse failure or
a missing "report" key raises inside the `try` and is caught, yielding
`None`. -/
def get_cached_result (fs : CacheFS) (now : Int) (query : String) :
    Option String × CacheFS :=
  match fs (get_cache_key query) with
  | none => (none, fs)
  | some .invalid => (none, fs)
  | some (.valid e) =>
    if now - e.timestamp.getD 0 < expiryHours query * 3600 then
      match e.report with
      | some r => (some r, fs)
      | none => (none, fs)
    else (none, fs)

/-- `CacheManager.cache_result` (src/src/tools/cache_manager.py,
lines 37-51): overwrite the key's file with
`{query, timestamp = now, duration, report}`. -/
def cache_result (fs : CacheFS) (now : Int) (query report : String)
    (duration : Int) : CacheFS :=
  fun k =>
    if k = get_cache_key query then
      some (.valid ⟨query, some now, duration, some report⟩)
    else fs k

/-- A cache file that `get_cached_result` cannot serve even when fresh:
unparsable JSON (`json.load` raises), or JSON lacking the "report" field
(`cached_data["report"]` raises); both exceptions are caught. -/
def badCacheFile (f : CacheFile) : Prop :=
  f = .invalid ∨ ∃ e, f = .valid e ∧ e.report = none

/-! ### Result deduplicator/ranker (src/src/tools/search_tool.py) -/

/-- One raw `organic` item from the search API, as a Python dict whose
fields may be missing (`item.get(..., default)` supplies defaults). -/
structure RawItem where
  title : Option String
  link : Option String
  snippet : Option String
  date : Option String
deriving DecidableEq

/-- One processed result, as built by `SearchTool._process_results`. -/
structure FinalItem where
  title : String
  link : String
  snippet : String
  time : String
  priority : Nat
deriving DecidableEq

/-- The slice of a search configuration that `_process_results` reads. -/
structure SearchConfig where
  primary_sources : List String
  secondary_sources : List String
deriving DecidableEq

/-- Helper for `splitSep`. -/
def splitSepAux (sep : Char) : List Char → List Char → List (List Char)
  | [], acc => [acc.reverse]
  | c :: rest, acc =>
    if c = sep then acc.reverse :: splitSepAux sep rest []
    else splitSepAux sep rest (c :: acc)

/-- Python's `str.split(sep)` with an explicit separator: split at every
occurrence, keeping empty pieces. -/
def splitSep (sep : Char) (l : List Char) : List (List Char) :=
  splitSepAux sep l []

/-- `link.split('/')[2].lower()`: `none` models the IndexError raised
when the link has fewer than three '/'-separated pieces (uncaught in
`_process_results`). -/
def getDomain (link : List Char) : Option (List Char) :=
  ((splitSep '/' link)[2]?).map (·.map pyToLower)

/-- Validity filter of `_process_results`:
`if not link or not link.startswith('http'): continue`. -/
def linkValid (link : List Char) : Bool :=
  !link.isEmpty && "http".data.isPrefixOf link

/-- Priority assignment of `_process_results`: 0 if any primary source is
a substring of the domain, else 1 for a secondary source, else 3. -/
def resultPriority (cfg : SearchConfig) (dom : List Char) : Nat :=
  if cfg.primary_sources.any (fun s => hasSubstr s.data dom) then 0
  else if cfg.secondary_sources.any (fun s => hasSubstr s.data dom) then 1
  else 3

/-- Build the output dict for one surviving item (fails when the domain
extraction raises). -/
def mkFinalItem (cfg : SearchConfig) (item : RawItem) : Option FinalItem :=
  (getDomain (item.link.getD "").data).map (fun dom =>
    { title := item.title.getD "No title"
      link := item.link.getD ""
      snippet := item.snippet.getD "No description available"
      time := item.date.getD "Recent"
      priority := resultPriority cfg dom })

/-- The main loop of `_process_results` (lines 123-151): skip invalid and
already-seen links, compute domain and priority for the rest, in input
order. -/
def processLoop (cfg : SearchConfig) :
    List RawItem → List String → Option (List FinalItem)
  | [], _ => some []
  | item :: rest, seen =>
    let link := item.link.getD ""
    if !linkValid link.data then processLoop cfg rest seen
    else if seen.contains link then processLoop cfg rest seen
    else
      match mkFinalItem cfg item with
      | none => none
      | some fi => (processLoop cfg rest (link :: seen)).map (fi :: ·)

/-- Insert keeping earlier elements before later ones of equal priority. -/
def insertByPriority (x : FinalItem) : List FinalItem → List FinalItem
  | [] => [x]
  | y :: ys =>
    if y.priority < x.priority then y :: insertByPriority x ys
    else x :: y :: ys

/-- `final_results.sort(key=lambda x: x['priority'])`: Python's
`list.sort` is a stable ascending sort, modelled as stable insertion
sort. -/
def pySortByPriority (l : List FinalItem) : List FinalItem :=
  l.foldr insertByPriority []

/-- `SearchTool._process_results` (src/src/tools/search_tool.py,
lines 123-154): deduplicate and validate, stable-sort by priority,
truncate to `max_results`. -/
def process_results (results : List RawItem) (cfg : SearchConfig)
    (max_results : Nat) : Option (List FinalItem) :=
  (processLoop cfg results []).map
    (fun l => (pySortByPriority l).take max_results)

/-- The specification's description of the deduplication stage, written
independently of the loop: keep each valid link's first occurrence, in
first-seen order. -/
def firstSeenDedupe (seen : List String) : List RawItem → List RawItem
  | [] => []
  | item :: rest =>
    let link := item.link.getD ""
    if linkValid link.data && !seen.contains link then
      item :: firstSeenDedupe (link :: seen) rest
    else firstSeenDedupe seen rest

/-- The record `_process_results` builds for a surviving item, with the
domain read off the link (total on well-formed links, where
`getDomain` succeeds). -/
def rankItem (cfg : SearchConfig) (item : RawItem) : FinalItem :=
  { title := item.title.getD "No title"
    link := item.link.getD ""
    snippet := item.snippet.getD "No description available"
    time := item.date.getD "Recent"
    priority := resultPriority cfg ((getDomain (item.link.getD "").data).getD []) }

/-! ### Fallback search client (src/src/test_news_api.py) -/

/-- One search result of `EnhancedSearchTool`. -/
structure SR where
  title : String
  link : String
  snippet : String
deriving DecidableEq

/-- Python's `query.replace(" ", "+")`: substitute every space. -/
def replaceSpacePlus (l : List Char) : List Char :=
  l.map (fun c => if c = ' ' then '+' else c)

/-- The generic placeholder of `_get_fallback_results`: a link to a
Google search for the query. -/
def genericFallback (query : String) : SR :=
  { title := "Information about " ++ query
    link := "https://www.google.com/search?q=" ++
      String.mk (replaceSpacePlus query.data)
    snippet := "No specific information available for \"" ++ query ++
      "\". This link will perform a general web search for this topic." }

/-- The hard-coded machine-learning fallback list (lines 195-212). -/
def mlFallbackResults : List SR :=
  [{ title := "Machine Learning - Wikipedia"
     link := "https://en.wikipedia.org/wiki/Machine_learning"
     snippet := "Machine learning (ML) is a field of study in artificial intelligence concerned with the development and study of statistical algorithms that can learn from data and generalize to unseen data, and thus perform tasks without explicit instructions." },
   { title := "What is Machine Learning? | IBM"
     link := "https://www.ibm.com/topics/machine-learning"
     snippet := "Machine learning is a branch of artificial intelligence (AI) and computer science which focuses on the use of data and algorithms to imitate the way that humans learn, gradually improving its accuracy." },
   { title := "Machine Learning | MIT Sloan"
     link := "https://mitsloan.mit.edu/ideas-made-to-matter/machine-learning-explained"
     snippet := "Machine learning is a form of artificial intelligence that teaches computers to think in a similar way to how humans do: learning and improving upon past experiences." }]

/-- The hard-coded artificial-intelligence fallback list (lines 216-227). -/
def aiFallbackResults : List SR :=
  [{ title := "Artificial Intelligence - Wikipedia"
     link := "https://en.wikipedia.org/wiki/Artificial_intelligence"
     snippet := "Artificial intelligence (AI) is the intelligence of machines or software, as opposed to the intelligence of humans or animals. It is also a field of study in computer science that develops and studies intelligent machines." },
   { title := "What is Artificial Intelligence (AI)? | IBM"
     link := "https://www.ibm.com/topics/artificial-intelligence"
     snippet := "Artificial intelligence is a field of science concerned with building computers and machines that can reason, learn, and act in such a way that would normally require human intelligence." }]

/-- `EnhancedSearchTool._get_fallback_results` (lines 182-238): select a
canned list by substring match on the lower-cased query; with no keyword
match, a single generic Google-search placeholder. -/
def get_fallback_results (query : String) : List SR :=
  let ql := query.data.map pyToLower
  if hasSubstr "machine learning".data ql then mlFallbackResults
  else if hasSubstr "artificial intelligence".data ql ||
      hasSubstr " ai ".data (' ' :: (ql ++ [' '])) then aiFallbackResults
  else [genericFallback query]

/-- The in-memory cache key of `EnhancedSearchTool.search`:
`query.strip().lower()`. -/
def searchCacheKey (query : String) : String :=
  String.mk ((pystrip query.data).map pyToLower)

/-- `EnhancedSearchTool.search` (lines 91-131), with the Serper API call
abstracted as `serper` (an `Except` models request failure): consult the
in-memory cache, then fall back to canned results when the API key is
missing or the API call raises. Rate limiting only sleeps and is elided. -/
def search (api_key : Option String) (cache : List (String × List SR))
    (serper : String → Nat → Except Unit (List SR))
    (query : String) (max_results : Nat) : List SR :=
  match cache.lookup (searchCacheKey query) with
  | some rs => rs
  | none =>
    match api_key with
    | none => get_fallback_results query
    | some _ =>
      match serper query max_results with
      | .ok rs => rs
      | .error _ => get_fallback_results query

/-! ### Search orchestration (src/src/agents/research_agent.py) -/

/-- `ResearchAgent.perform_search` (lines 129-141), with the search tool
abstracted as `st`: raise ValueError (modelled as `Except.error`) when
the query list is empty or every query is blank; otherwise search each
non-blank query and concatenate the results. -/
def perform_search (st : String → Nat → List SR)
    (search_queries : List String) (max_results : Nat) :
    Except String (List SR) :=
  if search_queries.isEmpty ||
      !search_queries.any (fun q => !(pystrip q.data).isEmpty) then
    .error "Search queries cannot be empty"
  else
    .ok (search_queries.foldl
      (fun acc q =>
        if (pystrip q.data).isEmpty then acc else acc ++ st q max_results)
      [])

/-! ### Helper lemmas -/

theorem char_toNat_ofNat_valid {n : Nat} (h : n.isValidChar) :
    (Char.ofNat n).toNat = n := by
  unfold Char.ofNat
  rw [dif_pos h]
  rfl

theorem char_eq_of_toNat_eq {c d : Char} (h : c.toNat = d.toNat) : c = d :=
  Char.ext (UInt32.ext h)

theorem pyToLower_cases (c : Char) :
    (¬(65 ≤ c.toNat ∧ c.toNat ≤ 90) ∧ pyToLower c = c) ∨
      ((65 ≤ c.toNat ∧ c.toNat ≤ 90) ∧ (pyToLower c).toNat = c.toNat + 32) := by
  by_cases h : 65 ≤ c.toNat ∧ c.toNat ≤ 90
  · refine .inr ⟨h, ?_⟩
    unfold pyToLower
    rw [if_pos h]
    exact char_toNat_ofNat_valid (Or.inl (by omega))
  · exact .inl ⟨h, by unfold pyToLower; rw [if_neg h]⟩

theorem pyIsSpace_iff_toNat (c : Char) :
    pyIsSpace c = true ↔
      (c.toNat = 32 ∨ c.toNat = 9 ∨ c.toNat = 10 ∨ c.toNat = 13 ∨
        c.toNat = 11 ∨ c.toNat = 12) := by
  constructor
  · intro h
    unfold pyIsSpace at h
    simp only [Bool.or_eq_true, decide_eq_true_eq] at h
    rcases h with ((((h | h) | h) | h) | h) | h <;> subst h <;> simp
  · intro h
    have : c = ' ' ∨ c = '\t' ∨ c = '\n' ∨ c = '\r' ∨ c = '\x0b' ∨ c = '\x0c' := by
      rcases h with h | h | h | h | h | h
      · exact .inl (char_eq_of_toNat_eq h)
      · exact .inr (.inl (char_eq_of_toNat_eq h))
      · exact .inr (.inr (.inl (char_eq_of_toNat_eq h)))
      · exact .inr (.inr (.inr (.inl (char_eq_of_toNat_eq h))))
      · exact .inr (.inr (.inr (.inr (.inl (char_eq_of_toNat_eq h)))))
      · exact .inr (.inr (.inr (.inr (.inr (char_eq_of_toNat_eq h)))))
    rcases this with h | h | h | h | h | h <;> subst h <;> rfl

theorem pyIsSpace_pyToLower (c : Char) :
    pyIsSpace (pyToLower c) = pyIsSpace c := by
  rcases pyToLower_cases c with ⟨_, he⟩ | ⟨h, ht⟩
  · rw [he]
  · have h1 : pyIsSpace (pyToLower c) = false := by
      cases hb : pyIsSpace (pyToLower c)
      · rfl
      · have := (pyIsSpace_iff_toNat (pyToLower c)).mp hb
        omega
    have h2 : pyIsSpace c = false := by
      cases hb : pyIsSpace c
      · rfl
      · have := (pyIsSpace_iff_toNat c).mp hb
        omega
    rw [h1, h2]

theorem pyToLower_eq_iff {t : Char} (h1 : ¬(65 ≤ t.toNat ∧ t.toNat ≤ 90))
    (h2 : ¬(97 ≤ t.toNat ∧ t.toNat ≤ 122)) (c : Char) :
    pyToLower c = t ↔ c = t := by
  constructor
  · intro h
    rcases pyToLower_cases c with ⟨_, he⟩ | ⟨hc, ht⟩
    · rw [← he]; exact h
    · exfalso
      have := congrArg Char.toNat h
      omega
  · intro h
    rw [h]
    rcases pyToLower_cases t with ⟨_, he⟩ | ⟨hc, _⟩
    · exact he
    · exact absurd hc h1

theorem lazyTail_no_special {l : List Char} (h1 : '?' ∉ l) (h2 : '\n' ∉ l) :
    lazyTail l = some (l, []) := by
  induction l with
  | nil => rfl
  | cons c t ih =>
    have hc1 : c ≠ '?' := fun h => h1 (h ▸ List.mem_cons_self c t)
    have hc2 : c ≠ '\n' := fun h => h2 (h ▸ List.mem_cons_self c t)
    rw [lazyTail, if_neg hc1, if_neg hc2,
      ih (fun h => h1 (List.mem_cons_of_mem c h))
        (fun h => h2 (List.mem_cons_of_mem c h))]
    rfl

theorem lazyTail_append_qmark {l : List Char} (h1 : '?' ∉ l) (h2 : '\n' ∉ l) :
    lazyTail (l ++ ['?']) = some (l, []) := by
  induction l with
  | nil => rfl
  | cons c t ih =>
    have hc1 : c ≠ '?' := fun h => h1 (h ▸ List.mem_cons_self c t)
    have hc2 : c ≠ '\n' := fun h => h2 (h ▸ List.mem_cons_self c t)
    rw [List.cons_append, lazyTail, if_neg hc1, if_neg hc2,
      ih (fun h => h1 (List.mem_cons_of_mem c h))
        (fun h => h2 (List.mem_cons_of_mem c h))]
    rfl

theorem matchPattern_what_is_eval (c : Char) (r g t : List Char)
    (hc : pyIsSpace c = false) (hlz : lazyTail (c :: r) = some (g, t)) :
    matchPattern "what".data "is".data "".data
      ('w' :: 'h' :: 'a' :: 't' :: ' ' :: 'i' :: 's' :: ' ' ::(c :: r)) = some (g ++ t) := by
  have hnil : "".data = ([] : List Char) := rfl
  have s1 : stripLit "what".data
      ('w' :: 'h' :: 'a' :: 't' :: ' ' :: 'i' :: 's' :: ' ' ::(c :: r)) =
      some (' ' :: 'i' :: 's' :: ' ' ::(c :: r)) := rfl
  have s2 : takeSpaces1 (' ' :: 'i' :: 's' :: ' ' ::(c :: r)) =
      some ('i' :: 's' :: ' ' ::(c :: r)) := rfl
  have s3 : stripLit "is".data ('i' :: 's' :: ' ' ::(c :: r)) =
      some (' ' ::(c :: r)) := rfl
  have s4 : takeSpaces1 (' ' ::(c :: r)) = some (c :: r) := by
    show some ((c :: r).dropWhile pyIsSpace) = some (c :: r)
    rw [List.dropWhile_cons, hc]
    simp
  simp only [matchPattern, Option.bind_eq_bind, Option.pure_def, s1, s2, s3,
    s4, hlz, Option.some_bind, hnil, List.append_nil]

theorem tryPatterns_enhanced_what_is (ql res : List Char)
    (h : matchPattern "what".data "is".data "".data ql = some res) :
    tryPatterns enhancedPatterns ql = some res := by
  show List.findSome? _ (("what".data, "is".data, "".data) :: _) = some res
  rw [List.findSome?_cons]
  dsimp only
  rw [h]

/-! ### Claim theorems: disk cache -/

/-- C2: for every query string, report string and duration, writing the
pair with `cache_result` and reading it back with `get_cached_result`
within the category-appropriate expiry window returns exactly the cached
report. -/
theorem cache_roundtrip (fs : CacheFS) (q r : String) (d now now' : Int)
    (h : now' - now < expiryHours q * 3600) :
    (get_cached_result (cache_result fs now q r d) now' q).1 = some r := by
  simp [get_cached_result, cache_result, h]

theorem cache_roundtrip_witness :
    (get_cached_result
      (cache_result (fun _ => none) 100 "alpha beta" "the report" 2)
      150 "alpha beta").1 = some "the report" :=
  cache_roundtrip (fun _ => none) "alpha beta" "the report" 2 100 150 (by decide)

/-- C3: a cached entry is reported as absent once more time than the
category threshold has elapsed since it was written, the threshold being
1 hour when the lower-cased query contains "news" and 24 hours
otherwise. -/
theorem cache_expiry (fs : CacheFS) (q r : String) (d now now' : Int)
    (h : expiryHours q * 3600 < now' - now) :
    (get_cached_result (cache_result fs now q r d) now' q).1 = none ∧
      expiryHours q =
        (if hasSubstr "news".data (q.data.map pyToLower) then 1 else 24) := by
  have h' : ¬(now' - now < expiryHours q * 3600) := by omega
  exact ⟨by simp [get_cached_result, cache_result, h'], rfl⟩

theorem cache_expiry_witness :
    (get_cached_result
      (cache_result (fun _ => none) 0 "daily news digest" "rep" 1)
      3601 "daily news digest").1 = none :=
  (cache_expiry (fun _ => none) "daily news digest" "rep" 1 0 3601 (by decide)).1

/-- C9: a cache lookup never deletes or modifies any cache file: the
cache directory after `get_cached_result` is exactly the one before, on
every query, at every time, whatever the directory holds (expired
entries included). -/
theorem get_cached_result_preserves_fs (fs : CacheFS) (now : Int) (q : String) :
    (get_cached_result fs now q).2 = fs := by
  unfold get_cached_result
  cases fs (get_cache_key q) with
  | none => rfl
  | some f =>
    cases f with
    | invalid => rfl
    | valid e =>
      dsimp only
      by_cases h : now - e.timestamp.getD 0 < expiryHours q * 3600
      · rw [if_pos h]
        cases e.report <;> rfl
      · rw [if_neg h]

/-- C10: when the query's cache file exists but holds invalid JSON, or
parses to JSON without a "report" field, `get_cached_result` returns
absent instead of raising. -/
theorem get_cached_result_bad_file (fs : CacheFS) (now : Int) (q : String)
    (f : CacheFile) (hf : fs (get_cache_key q) = some f)
    (hb : badCacheFile f) :
    (get_cached_result fs now q).1 = none := by
  unfold get_cached_result
  rw [hf]
  rcases hb with h | ⟨e, he, hr⟩
  · subst h
    rfl
  · subst he
    dsimp only
    rw [hr]
    by_cases ht : now - e.timestamp.getD 0 < expiryHours q * 3600
    · rw [if_pos ht]
    · rw [if_neg ht]

theorem get_cached_result_bad_file_witness :
    (get_cached_result
      (fun k => if k = get_cache_key "some query" then some .invalid else none)
      7 "some query").1 = none :=
  get_cached_result_bad_file
    (fun k => if k = get_cache_key "some query" then some .invalid else none)
    7 "some query" .invalid rfl (Or.inl rfl)

/-! ### Claim theorems: search orchestration and fallback client -/

/-- C6: `perform_search` raises the empty-query ValueError exactly when
the query list is empty or all its entries are blank; the outcome does
not consult the search tool, so no HTTP search call happens first, and a
list with at least one non-blank query never raises this error. -/
theorem perform_search_empty_iff (st : String → Nat → List SR)
    (queries : List String) (k : Nat) :
    perform_search st queries k = .error "Search queries cannot be empty" ↔
      queries.all (fun q => (pystrip q.data).isEmpty) = true := by
  have hcond : (queries.isEmpty ||
      !queries.any (fun q => !(pystrip q.data).isEmpty)) =
      queries.all (fun q => (pystrip q.data).isEmpty) := by
    cases queries with
    | nil => rfl
    | cons a l => simp [List.any_cons, List.all_cons, List.all_eq_not_any_not]
  unfold perform_search
  rw [hcond]
  by_cases h : queries.all (fun q => (pystrip q.data).isEmpty) = true
  · simp [h]
  · simp [h]

/-- C5: with no API key configured, `search` returns the hard-coded
fallback results chosen by keyword substring match, independently of the
Serper API client (so no network call can influence the outcome); and on
a query matching no topic keyword the fallback is a single generic
placeholder linking to a Google search for the query. -/
theorem search_no_key_fallback
    (serper serper' : String → Nat → Except Unit (List SR))
    (cache : List (String × List SR)) (query : String) (k k' : Nat)
    (hc : cache.lookup (searchCacheKey query) = none) :
    search none cache serper query k = get_fallback_results query ∧
      search none cache serper' query k' = search none cache serper query k ∧
      (hasSubstr "machine learning".data (query.data.map pyToLower) = false →
        hasSubstr "artificial intelligence".data (query.data.map pyToLower) = false →
        hasSubstr " ai ".data (' ' :: (query.data.map pyToLower ++ [' '])) = false →
        search none cache serper query k = [genericFallback query] ∧
          (genericFallback query).link =
            "https://www.google.com/search?q=" ++
              String.mk (replaceSpacePlus query.data)) := by
  have hbase : ∀ (s : String → Nat → Except Unit (List SR)) (m : Nat),
      search none cache s query m = get_fallback_results query := by
    intro s m
    unfold search
    rw [hc]
  refine ⟨hbase serper k, (hbase serper' k').trans (hbase serper k).symm, ?_⟩
  intro h1 h2 h3
  refine ⟨?_, rfl⟩
  rw [hbase serper k]
  simp [get_fallback_results, h1, h2, h3]

theorem search_no_key_fallback_witness :
    search none [] (fun _ _ => .error ()) "qux topic" 5 =
      [genericFallback "qux topic"] := by
  have h := search_no_key_fallback (fun _ _ => .error ())
    (fun _ _ => .ok []) [] "qux topic" 5 3 rfl
  exact (h.2.2 (by decide) (by decide) (by decide)).1

/-! ### Claim theorems: query normalizer -/

/-- C1 (amended): for any input whose stripped, lower-cased form is
"what is " followed by a topic `x` — `x` nonempty, not starting with
whitespace, containing no '?' and no newline — with or without one
trailing '?', the normalizer returns exactly `x`: the topic lower-cased,
with the interrogative prefix removed and the trailing '?' dropped.
(The original letter case of the topic is not preserved: the rules
substitute on the lower-cased query.) -/
theorem preprocess_query_what_is (q x : List Char)
    (hq : (pystrip q).map pyToLower = "what is ".data ++ x ∨
      (pystrip q).map pyToLower = "what is ".data ++ x ++ ['?'])
    (hx0 : x ≠ [])
    (hxh : x.head?.all (fun c => !pyIsSpace c) = true)
    (hxq : '?' ∉ x) (hxn : '\n' ∉ x) :
    preprocess_query q = x := by
  rcases x with _ | ⟨c, x'⟩
  · exact absurd rfl hx0
  · simp only [List.head?, Option.all] at hxh
    have hc : pyIsSpace c = false := by
      cases hb : pyIsSpace c
      · rfl
      · rw [hb] at hxh
        exact absurd hxh (by decide)
    have key : tryPatterns enhancedPatterns ((pystrip q).map pyToLower) =
        some (c :: x') := by
      rcases hq with hq | hq
      · have hlz : lazyTail (c :: x') = some (c :: x', []) :=
          lazyTail_no_special hxq hxn
        have m1 := matchPattern_what_is_eval c x' (c :: x') [] hc hlz
        rw [List.append_nil] at m1
        rw [hq,
          show "what is ".data ++ (c :: x') =
            'w' :: 'h' :: 'a' :: 't' :: ' ' :: 'i' :: 's' :: ' ' ::(c :: x') from rfl]
        exact tryPatterns_enhanced_what_is _ _ m1
      · have hlz : lazyTail (c :: (x' ++ ['?'])) = some (c :: x', []) :=
          lazyTail_append_qmark hxq hxn
        have m1 := matchPattern_what_is_eval c (x' ++ ['?']) (c :: x') [] hc hlz
        rw [List.append_nil] at m1
        rw [hq,
          show ("what is ".data ++ (c :: x')) ++ ['?'] =
            'w' :: 'h' :: 'a' :: 't' :: ' ' :: 'i' :: 's' :: ' ' ::(c :: (x' ++ ['?'])) from rfl]
        exact tryPatterns_enhanced_what_is _ _ m1
    simp only [preprocess_query]
    rw [key]

theorem preprocess_query_what_is_witness :
    preprocess_query "What Is Neural Networks".data = "neural networks".data :=
  preprocess_query_what_is "What Is Neural Networks".data
    "neural networks".data (Or.inl (by decide)) (by decide) (by decide)
    (by decide) (by decide)

theorem preprocess_query_what_is_cex :
    preprocess_query "What is Python".data = "python".data ∧
      "python".data ≠ "Python".data := by decide

/-- C7 (amended): when no interrogative rule matches the stripped,
lower-cased query and its first whitespace-delimited token is not a
question word, the normalizer returns the STRIPPED input — equal to the
original input only when that input carries no leading or trailing
whitespace. -/
theorem preprocess_query_no_rule (q : List Char)
    (h1 : tryPatterns enhancedPatterns ((pystrip q).map pyToLower) = none)
    (h2 : (pysplit ((pystrip q).map pyToLower)).head?.all
      (fun w => !questionWords.contains w) = true) :
    preprocess_query q = pystrip q := by
  simp only [preprocess_query]
  rw [h1]
  cases hs : pysplit ((pystrip q).map pyToLower) with
  | nil => rfl
  | cons w ws =>
    rw [hs] at h2
    simp only [List.head?, Option.all] at h2
    have hw : questionWords.contains w = false := by
      cases hb : questionWords.contains w
      · rfl
      · rw [hb] at h2
        exact absurd h2 (by decide)
    dsimp only
    rw [if_neg (by rw [hw]; exact Bool.false_ne_true)]

theorem preprocess_query_no_rule_witness :
    preprocess_query "cats dogs".data = "cats dogs".data := by
  have h := preprocess_query_no_rule "cats dogs".data (by decide) (by decide)
  exact h.trans (by decide)

theorem preprocess_query_no_rule_cex :
    preprocess_query " cats ".data = "cats".data ∧
      "cats".data ≠ " cats ".data := by decide

/-- C8: the spec promises the normalizer never raises, and
`EnhancedSearchTool.preprocess_query` indeed guards its word list; but
`CustomSearch._preprocess_query` indexes `words[0]` unguarded, so the
empty and whitespace-only queries raise IndexError (modelled `none`)
while the guarded sibling returns a string on the same inputs. -/
theorem custom_preprocess_query_blank :
    custom_preprocess_query "".data = none ∧
      custom_preprocess_query "   ".data = none ∧
      preprocess_query "".data = "".data ∧
      preprocess_query "   ".data = "".data := by decide

/-! ### Claim theorems: result deduplicator/ranker -/

theorem mkFinalItem_eq_some (cfg : SearchConfig) (item : RawItem)
    (h : (getDomain (item.link.getD "").data).isSome = true) :
    mkFinalItem cfg item = some (rankItem cfg item) := by
  obtain ⟨dom, hd⟩ := Option.isSome_iff_exists.mp h
  unfold mkFinalItem rankItem
  rw [hd]
  rfl

theorem processLoop_eq (cfg : SearchConfig) (results : List RawItem) :
    ∀ seen : List String,
      (∀ i ∈ results, linkValid (i.link.getD "").data = true →
        (getDomain (i.link.getD "").data).isSome = true) →
      processLoop cfg results seen =
        some ((firstSeenDedupe seen results).map (rankItem cfg)) := by
  induction results with
  | nil => intro seen _; rfl
  | cons item rest ih =>
    intro seen h
    have hrest : ∀ i ∈ rest, linkValid (i.link.getD "").data = true →
        (getDomain (i.link.getD "").data).isSome = true :=
      fun i hi => h i (List.mem_cons_of_mem _ hi)
    unfold processLoop firstSeenDedupe
    dsimp only
    by_cases hv : linkValid (item.link.getD "").data = true
    · by_cases hs : seen.contains (item.link.getD "") = true
      · rw [if_neg (by rw [hv]; decide), if_pos hs,
          if_neg (by rw [hv, hs]; decide)]
        exact ih seen hrest
      · have hsf : seen.contains (item.link.getD "") = false :=
          Bool.eq_false_iff.mpr hs
        have hd := h item (List.mem_cons_self item rest) hv
        rw [if_neg (by rw [hv]; decide), if_neg hs,
          if_pos (by rw [hv, hsf]; decide),
          mkFinalItem_eq_some cfg item hd]
        dsimp only
        rw [ih ((item.link.getD "") :: seen) hrest]
        simp [List.map_cons]
    · have hvf : linkValid (item.link.getD "").data = false :=
        Bool.eq_false_iff.mpr hv
      rw [if_pos (by rw [hvf]; decide), if_neg (by rw [hvf]; simp)]
      exact ih seen hrest

theorem insertByPriority_eq_cons (x : FinalItem) (l : List FinalItem)
    (h : ∀ y ∈ l, ¬(y.priority < x.priority)) :
    insertByPriority x l = x :: l := by
  cases l with
  | nil => rfl
  | cons y ys =>
    unfold insertByPriority
    rw [if_neg (h y (List.mem_cons_self y ys))]

theorem pySortByPriority_of_const (l : List FinalItem)
    (h : ∀ y ∈ l, y.priority = 3) : pySortByPriority l = l := by
  induction l with
  | nil => rfl
  | cons x t ih =>
    show insertByPriority x (pySortByPriority t) = x :: t
    rw [ih (fun y hy => h y (List.mem_cons_of_mem _ hy))]
    exact insertByPriority_eq_cons x t (fun y hy => by
      rw [h y (List.mem_cons_of_mem _ hy), h x (List.mem_cons_self x t)]
      omega)

/-- C4 (amended): on raw results whose valid links are well-formed
enough for domain extraction, `_process_results` keeps each valid
(http-prefixed) URL's first occurrence in first-seen order, stable-sorts
the survivors by ascending priority, and truncates to the requested
count — the truncation applies in every case, so at most `max_results`
entries come back even when more distinct valid URLs exist; with no
domain-priority rules configured, the result is exactly the first-seen
dedupe, truncated. -/
theorem process_results_spec (results : List RawItem) (cfg : SearchConfig)
    (k : Nat)
    (h : ∀ i ∈ results, linkValid (i.link.getD "").data = true →
      (getDomain (i.link.getD "").data).isSome = true) :
    process_results results cfg k =
      some ((pySortByPriority
        ((firstSeenDedupe [] results).map (rankItem cfg))).take k) ∧
      (cfg.primary_sources = [] → cfg.secondary_sources = [] →
        process_results results cfg k =
          some (((firstSeenDedupe [] results).map (rankItem cfg)).take k)) := by
  have h1 : process_results results cfg k =
      some ((pySortByPriority
        ((firstSeenDedupe [] results).map (rankItem cfg))).take k) := by
    unfold process_results
    rw [processLoop_eq cfg results [] h]
    rfl
  refine ⟨h1, fun hp hs => ?_⟩
  rw [h1]
  have hall : ∀ y ∈ (firstSeenDedupe [] results).map (rankItem cfg),
      y.priority = 3 := by
    intro y hy
    obtain ⟨i, _, rfl⟩ := List.mem_map.mp hy
    show resultPriority cfg _ = 3
    unfold resultPriority
    simp [hp, hs]
  rw [pySortByPriority_of_const _ hall]

theorem process_results_spec_witness :
    process_results
      [⟨some "A", some "https://a.com/x", some "sa", none⟩,
       ⟨some "W", some "https://en.wikipedia.org/wiki/Z", none, some "2024"⟩]
      ⟨["wikipedia.org"], ["ibm.com"]⟩ 5 =
      some [⟨"W", "https://en.wikipedia.org/wiki/Z",
              "No description available", "2024", 0⟩,
            ⟨"A", "https://a.com/x", "sa", "Recent", 3⟩] := by
  have h := process_results_spec
    [⟨some "A", some "https://a.com/x", some "sa", none⟩,
     ⟨some "W", some "https://en.wikipedia.org/wiki/Z", none, some "2024"⟩]
    ⟨["wikipedia.org"], ["ibm.com"]⟩ 5 (by decide)
  rw [h.1]
  decide

theorem process_results_cex :
    (process_results
      [⟨some "1", some "https://a.com/1", none, none⟩,
       ⟨some "2", some "https://a.com/2", none, none⟩,
       ⟨some "3", some "https://a.com/3", none, none⟩,
       ⟨some "4", some "https://a.com/4", none, none⟩]
      ⟨[], []⟩ 3).map List.length = some 3 ∧
      (firstSeenDedupe []
        [⟨some "1", some "https://a.com/1", none, none⟩,
         ⟨some "2", some "https://a.com/2", none, none⟩,
         ⟨some "3", some "https://a.com/3", none, none⟩,
         ⟨some "4", some "https://a.com/4", none, none⟩]).length = 4 := by
  decide
